import Mathlib

/-!
Verification of the vessel-spill correlation pipeline (`src/app.py`).

The embedding models:
* the candidate matcher `find_candidates` (spatial join with shapely's
  `within` predicate followed by a closed two-sided time filter),
* the aggregations of the analytics tabs (deduplication, groupby counts,
  area sums, distinct-vessel counts, prime-suspect selection, vessel-type
  aggregation),
* the left merge of vessel display names onto the ranking tables,
* the two data loaders' partial-data handling.

Numeric fields (coordinates, areas) are integers: the source's floating
point values are embedded as exact scaled integers (none of the specified
properties depends on fractional values).  Timestamps are integers on an
absolute time scale; the pandas hour window `timedelta(hours=w)` becomes
the integer `w` on that scale.
-/

/-- A WGS84 longitude/latitude pair (scaled to an integer grid). -/
structure Point where
  x : ℤ
  y : ℤ
deriving DecidableEq, Repr

/-- Point `p` lies on the closed segment from `a` to `b` (collinear and inside the
segment's bounding box). -/
def onSegment (p a b : Point) : Bool :=
  decide ((b.x - a.x) * (p.y - a.y) = (b.y - a.y) * (p.x - a.x) ∧
    ((a.x ≤ p.x ∧ p.x ≤ b.x) ∨ (b.x ≤ p.x ∧ p.x ≤ a.x)) ∧
    ((a.y ≤ p.y ∧ p.y ≤ b.y) ∨ (b.y ≤ p.y ∧ p.y ≤ a.y)))

/-- The edges of a polygon ring given by its vertex list (the ring is closed:
the last vertex connects back to the first). -/
def edges (poly : List Point) : List (Point × Point) :=
  poly.zip (poly.drop 1 ++ poly.take 1)

/-- Point `p` lies on the boundary of the polygon ring. -/
def onBoundary (p : Point) (poly : List Point) : Bool :=
  (edges poly).any (fun e => onSegment p e.1 e.2)

/-- The edge from `a` to `b` crosses the horizontal ray going right from `p`,
with the standard half-open vertical range and strict sidedness so that each
crossing of a simple ring is counted exactly once. -/
def edgeCrossesRay (p a b : Point) : Bool :=
  let d := (b.x - a.x) * (p.y - a.y) - (b.y - a.y) * (p.x - a.x)
  (decide (a.y ≤ p.y) && decide (p.y < b.y) && decide (0 < d)) ||
  (decide (b.y ≤ p.y) && decide (p.y < a.y) && decide (d < 0))

/-- Shapely's `within` predicate for a point and a polygon, as used by
`gpd.sjoin(vessels_gdf, spills_gdf, predicate='within')`: true exactly when
the point is in the interior of the polygon.  A point on the boundary is NOT
`within` (DE-9IM: the point must meet the interior and may not meet the
exterior; a boundary point meets only the boundary). -/
def within (p : Point) (poly : List Point) : Bool :=
  !(onBoundary p poly) &&
    ((edges poly).countP (fun e => edgeCrossesRay p e.1 e.2)) % 2 == 1

-- Sanity checks of the geometry model: interior, boundary (corner and edge
-- midpoint) and exterior points of small squares.
example : within ⟨0, 0⟩ [⟨-1, -1⟩, ⟨1, -1⟩, ⟨1, 1⟩, ⟨-1, 1⟩] = true := by decide
example : within ⟨0, 0⟩ [⟨0, 0⟩, ⟨2, 0⟩, ⟨2, 2⟩, ⟨0, 2⟩] = false := by decide
example : onBoundary ⟨0, 0⟩ [⟨0, 0⟩, ⟨2, 0⟩, ⟨2, 2⟩, ⟨0, 2⟩] = true := by decide
example : onBoundary ⟨1, 0⟩ [⟨0, 0⟩, ⟨2, 0⟩, ⟨2, 2⟩, ⟨0, 2⟩] = true := by decide
example : within ⟨3, 3⟩ [⟨0, 0⟩, ⟨2, 0⟩, ⟨2, 2⟩, ⟨0, 2⟩] = false := by decide
example : within ⟨1, 1⟩ [⟨0, 0⟩, ⟨2, 0⟩, ⟨2, 2⟩, ⟨0, 2⟩] = true := by decide

/-- A spill record as produced by `load_spills_data`: renamed business key,
polygon geometry, parsed detection timestamp, area. -/
structure Spill where
  spill_id : String
  polygon : List Point
  detection_date : ℤ
  area_sq_km : ℤ
deriving DecidableEq, Repr

/-- A vessel position fix as produced by `load_ais_data`.  `vessel_name` and
`vesselType` are the optional columns of the AIS csv. -/
structure VesselFix where
  mmsi : ℤ
  pos : Point
  timestamp : ℤ
  vessel_name : Option String
  vesselType : Option String
deriving DecidableEq, Repr

/-- A row of the candidate frame: the joined vessel and spill columns,
plus the `time_to_detection` column, which does not exist (`none`) until
the analytics tab assigns it. -/
structure Cand where
  fix : VesselFix
  spill : Spill
  ttd : Option ℤ
deriving DecidableEq, Repr

/-- Model of `gpd.sjoin(vessels_gdf, spills_gdf, predicate='within')` (line 127): one
output row per (vessel row, spill row) pair whose point is within the spill
polygon, in left-row-major order, carrying the columns of both inputs. -/
def sjoin (vessels : List VesselFix) (spills : List Spill) : List Cand :=
  vessels.flatMap (fun f =>
    (spills.filter (fun s => within f.pos s.polygon)).map (fun s => ⟨f, s, none⟩))

/-- The candidate frame returned by `find_candidates`: either the schemaless
empty `gpd.GeoDataFrame()` (no columns at all) or a table of candidate rows
(possibly empty, but carrying the joined columns). -/
inductive CandFrame where
  | emptySchemaless : CandFrame
  | table : List Cand → CandFrame
deriving DecidableEq, Repr

/-- The rows of a candidate frame. -/
def CandFrame.rows : CandFrame → List Cand
  | .emptySchemaless => []
  | .table l => l

/-- The temporal filter of lines 133-136:
`timestamp <= detection_date` and `timestamp >= detection_date - timedelta(hours=w)`. -/
def timeOk (w : ℤ) (c : Cand) : Bool :=
  decide (c.fix.timestamp ≤ c.spill.detection_date) &&
  decide (c.spill.detection_date - w ≤ c.fix.timestamp)

/-- Function `find_candidates` (lines 123-138): returns the schemaless empty frame when
either input is missing or the spatial join matches nothing; otherwise filters
the joined rows by the closed two-sided time window. -/
def find_candidates (spills_gdf : Option (List Spill)) (vessels_gdf : Option (List VesselFix))
    (time_window_hours : ℤ) : CandFrame :=
  match spills_gdf, vessels_gdf with
  | some spills, some vessels =>
    let candidates := sjoin vessels spills
    if candidates.isEmpty then .emptySchemaless
    else .table (candidates.filter (timeOk time_window_hours))
  | _, _ => .emptySchemaless

/-- The key pair used by `drop_duplicates(subset=['spill_id', 'mmsi'])`
(line 186) and `drop_duplicates(subset=['mmsi', 'spill_id'])` (line 209). -/
def candKey (c : Cand) : ℤ × String := (c.fix.mmsi, c.spill.spill_id)

/-- pandas `drop_duplicates` over a key: keep each row whose key has not been
seen before it, i.e. the first representative of every key group. -/
def dedupByKey {α κ : Type} [DecidableEq κ] (key : α → κ) : List α → List κ → List α
  | [], _ => []
  | a :: t, seen =>
    if key a ∈ seen then dedupByKey key t seen else a :: dedupByKey key t (key a :: seen)

/-- Model of `unique_incidents = candidates_df.drop_duplicates(subset=['mmsi', 'spill_id'])`
(line 209; line 186 deduplicates by the same key pair). -/
def unique_incidents (cands : List Cand) : List Cand := dedupByKey candKey cands []

/-- groupby key order: pandas sorts group keys ascending. -/
def sortAscInt (l : List ℤ) : List ℤ := List.insertionSort (fun a b => a ≤ b) l

/-- Lexicographic order on character lists by code point. -/
def charListLt : List Char → List Char → Bool
  | [], [] => false
  | [], _ :: _ => true
  | _ :: _, [] => false
  | a :: as, b :: bs =>
    decide (a.toNat < b.toNat) || (decide (a.toNat = b.toNat) && charListLt as bs)

/-- Lexicographic string order (the order pandas uses on string group keys). -/
def strLt (a b : String) : Bool := charListLt a.data b.data

/-- groupby key order for string keys. -/
def sortAscString (l : List String) : List String :=
  List.insertionSort (fun a b => strLt a b = true) l

/-- The mmsi column of a candidate list. -/
def mmsiCol (cands : List Cand) : List ℤ := cands.map (fun c => c.fix.mmsi)

/-- The spill_id column of a candidate list. -/
def spillIdCol (cands : List Cand) : List String := cands.map (fun c => c.spill.spill_id)

/-- Model of `.sort_values(col, ascending=False)`: reorder rows descending by a column.
(pandas' default sort kind guarantees no tie order; only the descending order
and permutation-invariant facts are used of this model.) -/
def sort_values_desc {α β : Type} [LinearOrder β] (val : α → β) (l : List α) : List α :=
  List.insertionSort (fun a b => val b ≤ val a) l

/-- Model of `unique_incidents.groupby('mmsi').size()` sorted descending by count
(lines 210-211). -/
def ship_incident_counts (uniq : List Cand) : List (ℤ × ℕ) :=
  sort_values_desc (fun p => p.2)
    ((sortAscInt (mmsiCol uniq).dedup).map (fun m =>
      (m, uniq.countP (fun c => c.fix.mmsi == m))))

/-- Model of `ship_names = unique_incidents[['mmsi', 'vessel_name']].drop_duplicates()`
(line 213): the distinct (mmsi, vessel_name) pairs, first occurrences kept. -/
def ship_names (uniq : List Cand) : List (ℤ × Option String) :=
  dedupByKey (fun p => p) (uniq.map (fun c => (c.fix.mmsi, c.fix.vessel_name))) []

/-- Model of `pd.merge(left, right, on='mmsi', how='left')` (lines 214 and 221): every
left row appears, once per matching right row when there is a match, and once
with a missing name when there is none. -/
def pd_merge_left {α : Type} (left : List (ℤ × α)) (right : List (ℤ × Option String)) :
    List (ℤ × α × Option String) :=
  left.flatMap (fun p =>
    let ms := right.filter (fun q => q.1 == p.1)
    if ms.isEmpty then [(p.1, p.2, none)] else ms.map (fun q => (p.1, p.2, q.2)))

/-- Model of `unique_incidents.groupby('mmsi')['area_sq_km'].sum()` sorted descending
(lines 218-219). -/
def ship_area_sum (uniq : List Cand) : List (ℤ × ℤ) :=
  sort_values_desc (fun p => p.2)
    ((sortAscInt (mmsiCol uniq).dedup).map (fun m =>
      (m, ((uniq.filter (fun c => c.fix.mmsi == m)).map (fun c => c.spill.area_sq_km)).sum)))

/-- Model of `candidates_df.groupby('spill_id')['mmsi'].nunique()` sorted descending
(lines 233-234). -/
def spill_candidate_counts (cands : List Cand) : List (String × ℕ) :=
  sort_values_desc (fun p => p.2)
    ((sortAscString (spillIdCol cands).dedup).map (fun sid =>
      (sid, (mmsiCol (cands.filter (fun c => c.spill.spill_id == sid))).dedup.length)))

/-- The value assigned to the `time_to_detection` column:
`detection_date - timestamp` (line 238). -/
def Cand.ttdVal (c : Cand) : ℤ := c.spill.detection_date - c.fix.timestamp

/-- Model of `candidates_df['time_to_detection'] = candidates_df['detection_date'] -
candidates_df['timestamp']` (line 238): in-place assignment of the derived
column on the shared candidate frame. -/
def set_time_to_detection (cands : List Cand) : List Cand :=
  cands.map (fun c => { c with ttd := some c.ttdVal })

/-- Reading the `time_to_detection` column of a row (only ever done after the
assignment, so the default is never hit). -/
def Cand.ttdCol (c : Cand) : ℤ := c.ttd.getD 0

/-- One step of the running minimum used by `idxmin`: keep the earlier row
unless the new row's column value is strictly smaller (ties keep the first
occurrence, as pandas `idxmin` does). -/
def idxminStep (acc : Option Cand) (c : Cand) : Option Cand :=
  match acc with
  | none => some c
  | some b => if c.ttdCol < b.ttdCol then some c else some b

/-- Model of `groupby('spill_id')['time_to_detection'].idxmin()` followed by `.loc`,
restricted to one group (line 239): the first row of the group attaining the
minimal column value. -/
def idxmin_ttd (sid : String) (cands : List Cand) : Option Cand :=
  (cands.filter (fun c => c.spill.spill_id == sid)).foldl idxminStep none

/-- Lines 238-240: assign the `time_to_detection` column on the candidate
frame, then select per spill_id the first row attaining the minimal value.
First component: the prime-suspect mapping; second: the candidate frame as it
is left after the block (the column assignment mutated it). -/
def prime_suspects_block (cands : List Cand) : List (String × Cand) × List Cand :=
  let assigned := set_time_to_detection cands
  ((sortAscString (spillIdCol assigned).dedup).filterMap
      (fun sid => (idxmin_ttd sid assigned).map (fun c => (sid, c))),
   assigned)

/-- Lines 246-251: `unique_incidents.groupby('VesselType').agg(incident_count=
('spill_id', 'count'), total_area_sq_km=('area_sq_km', 'sum'))` sorted
descending by count.  pandas groupby skips rows with a missing group key, so
only rows carrying a vessel type form groups. -/
def vessel_type_analysis (uniq : List Cand) : List (String × ℕ × ℤ) :=
  sort_values_desc (fun p => p.2.1)
    ((sortAscString (uniq.filterMap (fun c => c.fix.vesselType)).dedup).map (fun t =>
      let grp := uniq.filter (fun c => c.fix.vesselType == some t)
      (t, grp.length, (grp.map (fun c => c.spill.area_sq_km)).sum)))

/-- Model of `drop_duplicates(subset=['mmsi', 'spill_id'])` at the frame level: pandas
raises `KeyError` when the subset names columns that do not exist, which is the
case for the schemaless empty `gpd.GeoDataFrame()` that `find_candidates`
returns when the spatial join is empty. -/
def unique_incidents_frame : CandFrame → Except String (List Cand)
  | .emptySchemaless => .error "KeyError: mmsi, spill_id"
  | .table rows => .ok (unique_incidents rows)

/-- Lines 209-211 at the frame level. -/
def ship_incident_counts_frame (c : CandFrame) : Except String (List (ℤ × ℕ)) :=
  (unique_incidents_frame c).map ship_incident_counts

/-- Lines 218-219 at the frame level. -/
def ship_area_sum_frame (c : CandFrame) : Except String (List (ℤ × ℤ)) :=
  (unique_incidents_frame c).map ship_area_sum

/-- Lines 233-234 at the frame level: `groupby('spill_id')` raises `KeyError`
on the schemaless frame. -/
def spill_candidate_counts_frame : CandFrame → Except String (List (String × ℕ))
  | .emptySchemaless => .error "KeyError: spill_id"
  | .table rows => .ok (spill_candidate_counts rows)

/-- Lines 238-240 at the frame level: the column access
`candidates_df['detection_date']` raises `KeyError` on the schemaless frame. -/
def prime_suspects_frame : CandFrame → Except String (List (String × Cand) × List Cand)
  | .emptySchemaless => .error "KeyError: detection_date"
  | .table rows => .ok (prime_suspects_block rows)

/-- Lines 246-251 at the frame level: the tab already crashed at line 209 on
the schemaless frame, before the VesselType guard is reached. -/
def vessel_type_analysis_frame : CandFrame → Except String (List (String × ℕ × ℤ))
  | .emptySchemaless => .error "KeyError: mmsi, spill_id"
  | .table rows => .ok (vessel_type_analysis (unique_incidents rows))

/-- A raw spill row after the column checks of `load_spills_data`: the
`detection_date` field is the per-row result of
`pd.to_datetime(..., errors='coerce')` (`none` = NaT, unparseable). -/
structure RawSpill where
  spill_id : String
  area_sq_km : ℤ
  polygon : List Point
  detection_date : Option ℤ
deriving DecidableEq, Repr

/-- Per-row outcome of the spills loader's timestamp parse: the record, if
the detection timestamp parsed. -/
def parseSpillRow (r : RawSpill) : Option Spill :=
  r.detection_date.map (fun d => Spill.mk r.spill_id r.polygon d r.area_sq_km)

/-- Lines 79-94 of `load_spills_data` (the partial-data path, after the read
and column checks): warn with the count of unparseable rows if any, drop
those rows, and fail (return `None`) when no row survives.  First component:
the loaded records (`none` = fatal).  Second component: the dropped-row count
surfaced in the warning (`none` = no warning shown).  The per-row outcome of
the parse is `parseSpillRow`. -/
def load_spills_data (gdf : List RawSpill) : Option (List Spill) × Option ℕ :=
  let failed_count := gdf.countP (fun r => r.detection_date.isNone)
  let kept := gdf.filterMap parseSpillRow
  let warn := if failed_count = 0 then none else some failed_count
  if kept.isEmpty then (none, warn) else (some kept, warn)

/-- A raw AIS row after the column checks of `load_ais_data`: the `timestamp`
field is the per-row result of `pd.to_datetime(df['BaseDateTime'],
errors='coerce')`; coordinates are optional because rows with missing
coordinates are dropped by the `dropna`. -/
structure RawAis where
  mmsi : ℤ
  latitude : Option ℤ
  longitude : Option ℤ
  timestamp : Option ℤ
  vessel_name : Option String
  vesselType : Option String
deriving DecidableEq, Repr

/-- Per-row outcome of the AIS loader's parse-and-dropna: the fix, provided
the timestamp parsed and both coordinates are present. -/
def parseAisRow (r : RawAis) : Option VesselFix :=
  match r.timestamp, r.latitude, r.longitude with
  | some t, some la, some lo =>
    some (VesselFix.mk r.mmsi ⟨lo, la⟩ t r.vessel_name r.vesselType)
  | _, _, _ => none

/-- Lines 111-121 of `load_ais_data` (the partial-data path, after the read
and column checks): `dropna(subset=['timestamp', 'latitude', 'longitude'])`
drops the offending rows silently — no dropped-row count is reported (second
component always `none`) — and this path never fails. -/
def load_ais_data (df : List RawAis) : Option (List VesselFix) × Option ℕ :=
  (some (df.filterMap parseAisRow), none)

/-! ### Sample data used by witnesses and counterexamples -/

/-- The square with corners (0,0) and (2,2). -/
def sq2 : List Point := [⟨0, 0⟩, ⟨2, 0⟩, ⟨2, 2⟩, ⟨0, 2⟩]

/-- A spill detected at time 100 over the square `sq2`. -/
def spillA : Spill := ⟨"2024-01-10_12:00:00", sq2, 100, 5⟩

/-- A fix sitting exactly on a polygon corner at the detection instant. -/
def fixCorner : VesselFix := ⟨111, ⟨0, 0⟩, 100, some "Alpha", none⟩

/-- A fix strictly inside the polygon, 10 time units before detection. -/
def fixInside : VesselFix := ⟨222, ⟨1, 1⟩, 90, some "Beta", some "Tanker"⟩

/-- A fix outside the polygon. -/
def fixOutside : VesselFix := ⟨333, ⟨5, 5⟩, 90, none, none⟩

/-! ### Matcher lemmas -/

lemma mem_sjoin {vessels : List VesselFix} {spills : List Spill} {c : Cand} :
    c ∈ sjoin vessels spills ↔
      c.fix ∈ vessels ∧ c.spill ∈ spills ∧ within c.fix.pos c.spill.polygon = true ∧
        c.ttd = none := by
  unfold sjoin
  constructor
  · intro h
    obtain ⟨f, hf, hmap⟩ := List.mem_flatMap.mp h
    obtain ⟨s, hs, he⟩ := List.mem_map.mp hmap
    obtain ⟨hs1, hs2⟩ := List.mem_filter.mp hs
    subst he
    exact ⟨hf, hs1, hs2, rfl⟩
  · intro ⟨h1, h2, h3, h4⟩
    refine List.mem_flatMap.mpr ⟨c.fix, h1, List.mem_map.mpr
      ⟨c.spill, List.mem_filter.mpr ⟨h2, h3⟩, ?_⟩⟩
    rw [← h4]

lemma mem_find_candidates {spills : List Spill} {vessels : List VesselFix} {w : ℤ} {c : Cand} :
    c ∈ (find_candidates (some spills) (some vessels) w).rows ↔
      c ∈ sjoin vessels spills ∧ timeOk w c = true := by
  unfold find_candidates
  cases hsj : sjoin vessels spills with
  | nil => simp [hsj, CandFrame.rows]
  | cons a t => simp [hsj, CandFrame.rows, List.mem_filter]

/-- The boundary-inclusive containment the claim asserts ("the polygon treated
as closed, i.e. boundary points included"), stated from the spec's words for
comparison against the source's `within`. -/
def containsClosedSpec (p : Point) (poly : List Point) : Bool :=
  onBoundary p poly || within p poly

/-- C1 is false as stated: a fix sitting on the polygon boundary (here a
corner of the square) at exactly the detection time satisfies the
boundary-inclusive containment and both closed temporal bounds, yet the
matcher does not emit it, because shapely's `within` excludes boundary
points. -/
theorem C1_counterexample :
    ¬ (((⟨fixCorner, spillA, none⟩ : Cand) ∈
          (find_candidates (some [spillA]) (some [fixCorner]) 24).rows) ↔
        (containsClosedSpec fixCorner.pos spillA.polygon = true ∧
          spillA.detection_date - 24 ≤ fixCorner.timestamp ∧
          fixCorner.timestamp ≤ spillA.detection_date)) := by decide

/-- C1 (amended): for every spill S, fix F and non-negative window w, F is
emitted as a candidate of S by the matcher iff F's position is strictly
inside S's polygon (boundary points excluded, shapely `within` semantics)
and `S.detection_time - w ≤ F.timestamp ≤ S.detection_time`, both temporal
bounds closed; a fix with timestamp exactly equal to detection_time is
included. -/
theorem C1_candidate_iff (spills : List Spill) (vessels : List VesselFix) (w : ℤ)
    (f : VesselFix) (s : Spill) (_hw : 0 ≤ w) (hf : f ∈ vessels) (hs : s ∈ spills) :
    ((⟨f, s, none⟩ : Cand) ∈ (find_candidates (some spills) (some vessels) w).rows) ↔
      (within f.pos s.polygon = true ∧
        s.detection_date - w ≤ f.timestamp ∧ f.timestamp ≤ s.detection_date) := by
  rw [mem_find_candidates, mem_sjoin]
  simp only [timeOk]
  constructor
  · rintro ⟨⟨-, -, hwin, -⟩, ht⟩
    rw [Bool.and_eq_true, decide_eq_true_iff, decide_eq_true_iff] at ht
    exact ⟨hwin, ht.2, ht.1⟩
  · rintro ⟨hwin, h1, h2⟩
    refine ⟨⟨hf, hs, hwin, by trivial⟩, ?_⟩
    rw [Bool.and_eq_true, decide_eq_true_iff, decide_eq_true_iff]
    exact ⟨h2, h1⟩

/-- Witness for C1 (amended) at a concrete input: a fix strictly inside the
square, 10 units before detection, inside a window of 24. -/
theorem C1_candidate_iff_witness :
    (0 : ℤ) ≤ 24 ∧ fixInside ∈ [fixInside] ∧ spillA ∈ [spillA] ∧
      (((⟨fixInside, spillA, none⟩ : Cand) ∈
          (find_candidates (some [spillA]) (some [fixInside]) 24).rows) ↔
        (within fixInside.pos spillA.polygon = true ∧
          spillA.detection_date - 24 ≤ fixInside.timestamp ∧
          fixInside.timestamp ≤ spillA.detection_date)) :=
  ⟨by decide, by decide, by decide,
    C1_candidate_iff [spillA] [fixInside] 24 fixInside spillA (by decide) (by decide)
      (by decide)⟩

/-- C4: for fixed inputs and windows w1 ≤ w2, every candidate emitted at
window w1 is emitted at window w2 — increasing the window only adds
candidates. -/
theorem C4_window_monotone (spills : List Spill) (vessels : List VesselFix)
    (w1 w2 : ℤ) (hw : w1 ≤ w2) (c : Cand)
    (hc : c ∈ (find_candidates (some spills) (some vessels) w1).rows) :
    c ∈ (find_candidates (some spills) (some vessels) w2).rows := by
  rw [mem_find_candidates] at hc ⊢
  obtain ⟨hj, ht⟩ := hc
  refine ⟨hj, ?_⟩
  simp only [timeOk, Bool.and_eq_true, decide_eq_true_iff] at ht ⊢
  omega

/-- Witness for C4 at a concrete input: the inside fix is a candidate at
window 12 and hence also at window 24. -/
theorem C4_window_monotone_witness :
    (12 : ℤ) ≤ 24 ∧
      (⟨fixInside, spillA, none⟩ : Cand) ∈
        (find_candidates (some [spillA]) (some [fixInside]) 12).rows ∧
      (⟨fixInside, spillA, none⟩ : Cand) ∈
        (find_candidates (some [spillA]) (some [fixInside]) 24).rows :=
  ⟨by decide, by decide,
    C4_window_monotone [spillA] [fixInside] 12 24 (by decide) _ (by decide)⟩

/-! ### Deduplication lemmas -/

lemma dedupByKey_subset {α κ : Type} [DecidableEq κ] (key : α → κ) :
    ∀ (l : List α) (seen : List κ) (c : α), c ∈ dedupByKey key l seen → c ∈ l := by
  intro l
  induction l with
  | nil => intro seen c h; simp [dedupByKey] at h
  | cons a t ih =>
    intro seen c h
    rw [dedupByKey] at h
    by_cases hk : key a ∈ seen
    · simp only [hk, if_true] at h
      exact List.mem_cons_of_mem a (ih seen c h)
    · simp only [hk, if_false, List.mem_cons] at h
      rcases h with h | h
      · exact h ▸ List.mem_cons_self a t
      · exact List.mem_cons_of_mem a (ih _ c h)

lemma dedupByKey_mem_keys {α κ : Type} [DecidableEq κ] (key : α → κ) :
    ∀ (l : List α) (seen : List κ) (k : κ),
      k ∈ (dedupByKey key l seen).map key ↔ (k ∈ l.map key ∧ k ∉ seen) := by
  intro l
  induction l with
  | nil => intro seen k; simp [dedupByKey]
  | cons a t ih =>
    intro seen k
    rw [dedupByKey]
    by_cases hk : key a ∈ seen
    · simp only [hk, if_true, ih, List.map_cons, List.mem_cons]
      constructor
      · rintro ⟨h1, h2⟩; exact ⟨Or.inr h1, h2⟩
      · rintro ⟨h1 | h1, h2⟩
        · exact absurd (h1 ▸ hk) h2
        · exact ⟨h1, h2⟩
    · simp only [hk, if_false, List.map_cons, List.mem_cons, ih]
      constructor
      · rintro (h | ⟨h1, h2⟩)
        · exact ⟨Or.inl h, h ▸ hk⟩
        · exact ⟨Or.inr h1, fun hs => h2 (Or.inr hs)⟩
      · rintro ⟨h1 | h1, h2⟩
        · exact Or.inl h1
        · by_cases hak : k = key a
          · exact Or.inl hak
          · exact Or.inr ⟨h1, fun hor => hor.elim hak h2⟩

lemma dedupByKey_nodup_keys {α κ : Type} [DecidableEq κ] (key : α → κ) :
    ∀ (l : List α) (seen : List κ), ((dedupByKey key l seen).map key).Nodup := by
  intro l
  induction l with
  | nil => intro seen; simp [dedupByKey]
  | cons a t ih =>
    intro seen
    rw [dedupByKey]
    by_cases hk : key a ∈ seen
    · simp only [hk, if_true]; exact ih seen
    · simp only [hk, if_false, List.map_cons, List.nodup_cons]
      refine ⟨fun hmem => ?_, ih _⟩
      exact ((dedupByKey_mem_keys key t _ _).mp hmem).2 (List.mem_cons_self _ _)

lemma dedupByKey_first {α κ : Type} [DecidableEq κ] (key : α → κ) :
    ∀ (l : List α) (seen : List κ) (c : α), c ∈ dedupByKey key l seen →
      key c ∉ seen ∧ l.find? (fun x => decide (key x = key c)) = some c := by
  intro l
  induction l with
  | nil => intro seen c h; simp [dedupByKey] at h
  | cons a t ih =>
    intro seen c h
    rw [dedupByKey] at h
    by_cases hk : key a ∈ seen
    · simp only [hk, if_true] at h
      obtain ⟨hns, hfind⟩ := ih seen c h
      have hne : decide (key a = key c) = false := by
        simp only [decide_eq_false_iff_not]
        intro hEq; exact hns (hEq ▸ hk)
      refine ⟨hns, ?_⟩
      simp only [List.find?, hne]
      exact hfind
    · simp only [hk, if_false, List.mem_cons] at h
      rcases h with rfl | h
      · exact ⟨hk, List.find?_cons_of_pos _ (by simp)⟩
      · obtain ⟨hns, hfind⟩ := ih _ c h
        have hne : decide (key a = key c) = false := by
          simp only [decide_eq_false_iff_not]
          intro hEq
          exact hns (hEq ▸ List.mem_cons_self _ _)
        refine ⟨fun hs => hns (List.mem_cons_of_mem _ hs), ?_⟩
        simp only [List.find?, hne]
        exact hfind

/-- C3: deduplicating the candidate set by the key pair (mmsi, spill_id)
yields at most one entry per distinct key pair, every key pair present in
the input is represented exactly once in the output, and the retained
representative of each key pair is the first entry with that key in input
order. -/
theorem C3_dedup_law (cands : List Cand) :
    ((unique_incidents cands).map candKey).Nodup ∧
    (∀ k, k ∈ cands.map candKey ↔ k ∈ (unique_incidents cands).map candKey) ∧
    (∀ c ∈ unique_incidents cands,
      cands.find? (fun x => decide (candKey x = candKey c)) = some c) := by
  refine ⟨dedupByKey_nodup_keys candKey cands [], fun k => ?_, fun c hc => ?_⟩
  · rw [unique_incidents, dedupByKey_mem_keys]
    simp
  · exact (dedupByKey_first candKey cands [] c hc).2

/-- Witness for C3 at a concrete input: two rows share the key (222, spill),
the deduplicated keys are duplicate-free, the key is still represented, and
the kept representative is the first of the two rows. -/
theorem C3_dedup_law_witness :
    ((unique_incidents [⟨fixInside, spillA, none⟩, ⟨fixOutside, spillA, none⟩,
        ⟨fixInside, spillA, some 3⟩]).map candKey).Nodup ∧
    ((222, "2024-01-10_12:00:00") ∈
        ([⟨fixInside, spillA, none⟩, ⟨fixOutside, spillA, none⟩,
          ⟨fixInside, spillA, some 3⟩] : List Cand).map candKey ↔
      (222, "2024-01-10_12:00:00") ∈
        (unique_incidents [⟨fixInside, spillA, none⟩, ⟨fixOutside, spillA, none⟩,
          ⟨fixInside, spillA, some 3⟩]).map candKey) ∧
    (([⟨fixInside, spillA, none⟩, ⟨fixOutside, spillA, none⟩,
        ⟨fixInside, spillA, some 3⟩] : List Cand).find?
        (fun x => decide (candKey x = candKey ⟨fixInside, spillA, none⟩)) =
      some ⟨fixInside, spillA, none⟩) :=
  ⟨(C3_dedup_law _).1, (C3_dedup_law _).2.1 _,
    (C3_dedup_law _).2.2 ⟨fixInside, spillA, none⟩ (by decide)⟩

/-! ### Prime-suspect lemmas -/

lemma foldl_idxminStep (l : List Cand) :
    ∀ b : Cand, ∃ c, l.foldl idxminStep (some b) = some c ∧ (c = b ∨ c ∈ l) ∧
      c.ttdCol ≤ b.ttdCol ∧ ∀ x ∈ l, c.ttdCol ≤ x.ttdCol := by
  induction l with
  | nil => intro b; exact ⟨b, rfl, Or.inl rfl, le_refl _, by simp⟩
  | cons a t ih =>
    intro b
    rw [List.foldl_cons]
    by_cases hlt : a.ttdCol < b.ttdCol
    · have hstep : idxminStep (some b) a = some a := by simp [idxminStep, hlt]
      rw [hstep]
      obtain ⟨c, h1, h2, h3, h4⟩ := ih a
      refine ⟨c, h1, ?_, le_of_lt (lt_of_le_of_lt h3 hlt), ?_⟩
      · rcases h2 with rfl | h2
        · exact Or.inr (List.mem_cons_self _ _)
        · exact Or.inr (List.mem_cons_of_mem _ h2)
      · intro x hx
        rcases List.mem_cons.mp hx with rfl | hx
        · exact h3
        · exact h4 x hx
    · have hstep : idxminStep (some b) a = some b := by simp [idxminStep, hlt]
      rw [hstep]
      obtain ⟨c, h1, h2, h3, h4⟩ := ih b
      refine ⟨c, h1, ?_, h3, ?_⟩
      · rcases h2 with rfl | h2
        · exact Or.inl rfl
        · exact Or.inr (List.mem_cons_of_mem _ h2)
      · intro x hx
        rcases List.mem_cons.mp hx with rfl | hx
        · exact le_trans h3 (not_lt.mp hlt)
        · exact h4 x hx

lemma idxmin_ttd_spec (sid : String) (cands : List Cand) (c0 : Cand)
    (h0 : c0 ∈ cands) (hs0 : c0.spill.spill_id = sid) :
    ∃ c, idxmin_ttd sid cands = some c ∧ c ∈ cands ∧ c.spill.spill_id = sid ∧
      ∀ x ∈ cands, x.spill.spill_id = sid → c.ttdCol ≤ x.ttdCol := by
  unfold idxmin_ttd
  have hmem : c0 ∈ cands.filter (fun c => c.spill.spill_id == sid) :=
    List.mem_filter.mpr ⟨h0, by simp [hs0]⟩
  cases hf : cands.filter (fun c => c.spill.spill_id == sid) with
  | nil => rw [hf] at hmem; simp at hmem
  | cons a t =>
    rw [List.foldl_cons]
    have hstep : idxminStep none a = some a := rfl
    rw [hstep]
    obtain ⟨c, h1, h2, h3, h4⟩ := foldl_idxminStep t a
    have hcmem : c ∈ a :: t := by
      rcases h2 with rfl | h2
      · exact List.mem_cons_self _ _
      · exact List.mem_cons_of_mem _ h2
    have hcf : c ∈ cands.filter (fun c => c.spill.spill_id == sid) := hf ▸ hcmem
    obtain ⟨hc1, hc2⟩ := List.mem_filter.mp hcf
    refine ⟨c, h1, hc1, by simpa using hc2, ?_⟩
    intro x hx hxs
    have hxcons : x ∈ a :: t := hf ▸ List.mem_filter.mpr ⟨hx, by simp [hxs]⟩
    rcases List.mem_cons.mp hxcons with rfl | hxt
    · exact h3
    · exact h4 x hxt

lemma mem_set_ttd_fields {cands : List Cand} {x : Cand}
    (hx : x ∈ set_time_to_detection cands) :
    x.ttd = some x.ttdVal ∧ ∃ y ∈ cands, x.fix = y.fix ∧ x.spill = y.spill := by
  obtain ⟨y, hy, he⟩ := List.mem_map.mp hx
  subst he
  exact ⟨rfl, y, hy, rfl, rfl⟩

lemma mem_set_ttd_of_mem {cands : List Cand} {y : Cand} (hy : y ∈ cands) :
    (⟨y.fix, y.spill, some y.ttdVal⟩ : Cand) ∈ set_time_to_detection cands :=
  List.mem_map.mpr ⟨y, hy, rfl⟩

lemma set_ttd_ttdCol {cands : List Cand} {x : Cand}
    (hx : x ∈ set_time_to_detection cands) : x.ttdCol = x.ttdVal := by
  rw [Cand.ttdCol, (mem_set_ttd_fields hx).1]
  rfl

lemma spillIdCol_set_ttd (cands : List Cand) :
    spillIdCol (set_time_to_detection cands) = spillIdCol cands := by
  simp [spillIdCol, set_time_to_detection, List.map_map]

lemma mem_sortAscString {l : List String} {s : String} :
    s ∈ sortAscString l ↔ s ∈ l :=
  (List.perm_insertionSort _ l).mem_iff

lemma rows_timeOk {spills : List Spill} {vessels : List VesselFix} {w : ℤ} {c : Cand}
    (hc : c ∈ (find_candidates (some spills) (some vessels) w).rows) :
    c.fix.timestamp ≤ c.spill.detection_date ∧
      c.spill.detection_date - w ≤ c.fix.timestamp := by
  obtain ⟨-, ht⟩ := mem_find_candidates.mp hc
  simpa [timeOk, Bool.and_eq_true, decide_eq_true_iff] using ht

/-- C2: for each spill_id occurring in the matcher's candidate set, the
prime-suspect block (which reads the full, non-deduplicated candidate frame)
maps that spill_id to a candidate of that spill whose time_to_detection is
non-negative and minimal among all candidates of that spill. -/
theorem C2_prime_suspect_minimal (spills : List Spill) (vessels : List VesselFix) (w : ℤ)
    (sid : String)
    (hsid : sid ∈ spillIdCol (find_candidates (some spills) (some vessels) w).rows) :
    ∃ c, (sid, c) ∈
        (prime_suspects_block (find_candidates (some spills) (some vessels) w).rows).1 ∧
      c ∈ set_time_to_detection (find_candidates (some spills) (some vessels) w).rows ∧
      c.spill.spill_id = sid ∧ 0 ≤ c.ttdVal ∧
      ∀ x ∈ (find_candidates (some spills) (some vessels) w).rows,
        x.spill.spill_id = sid → c.ttdVal ≤ x.ttdVal := by
  set cands := (find_candidates (some spills) (some vessels) w).rows with hcands
  have hex : ∃ c0 ∈ cands, c0.spill.spill_id = sid := by
    obtain ⟨c0, hc0, hs0⟩ := List.mem_map.mp hsid
    exact ⟨c0, hc0, hs0⟩
  obtain ⟨c0, hc0, hs0⟩ := hex
  have ha0 : (⟨c0.fix, c0.spill, some c0.ttdVal⟩ : Cand) ∈ set_time_to_detection cands :=
    mem_set_ttd_of_mem hc0
  obtain ⟨c, hidx, hcmem, hcsid, hmin⟩ :=
    idxmin_ttd_spec sid (set_time_to_detection cands) _ ha0 hs0
  refine ⟨c, ?_, hcmem, hcsid, ?_, ?_⟩
  · simp only [prime_suspects_block]
    refine List.mem_filterMap.mpr ⟨sid, ?_, ?_⟩
    · rw [mem_sortAscString, List.mem_dedup, spillIdCol_set_ttd]
      exact hsid
    · rw [hidx]; rfl
  · obtain ⟨-, y, hy, hyf, hys⟩ := mem_set_ttd_fields hcmem
    have hle := (rows_timeOk (hcands ▸ hy)).1
    rw [Cand.ttdVal, hyf, hys]
    omega
  · intro x hx hxs
    have hx' : (⟨x.fix, x.spill, some x.ttdVal⟩ : Cand) ∈ set_time_to_detection cands :=
      mem_set_ttd_of_mem hx
    have := hmin _ hx' hxs
    rw [set_ttd_ttdCol hcmem] at this
    rw [set_ttd_ttdCol hx'] at this
    exact this

/-- A second fix inside the spill polygon, closer to the detection time. -/
def fixLater : VesselFix := ⟨444, ⟨1, 1⟩, 95, none, none⟩

/-- Witness for C2 at a concrete input: two fixes inside the spill, the block
selects the one 5 units before detection. -/
theorem C2_prime_suspect_minimal_witness :
    "2024-01-10_12:00:00" ∈
        spillIdCol (find_candidates (some [spillA]) (some [fixInside, fixLater]) 24).rows ∧
      ∃ c, ("2024-01-10_12:00:00", c) ∈
          (prime_suspects_block
            (find_candidates (some [spillA]) (some [fixInside, fixLater]) 24).rows).1 ∧
        c ∈ set_time_to_detection
            (find_candidates (some [spillA]) (some [fixInside, fixLater]) 24).rows ∧
        c.spill.spill_id = "2024-01-10_12:00:00" ∧ 0 ≤ c.ttdVal ∧
        ∀ x ∈ (find_candidates (some [spillA]) (some [fixInside, fixLater]) 24).rows,
          x.spill.spill_id = "2024-01-10_12:00:00" → c.ttdVal ≤ x.ttdVal :=
  ⟨by decide,
    C2_prime_suspect_minimal [spillA] [fixInside, fixLater] 24 "2024-01-10_12:00:00"
      (by decide)⟩

/-! ### Aggregation on an empty candidate set (C5) -/

/-- C5 fails on the code: when the spatial join matches nothing (here the only
fix lies outside the only polygon), `find_candidates` returns the schemaless
empty `gpd.GeoDataFrame()`, and every aggregation of the analytics tabs then
raises `KeyError` instead of returning an empty mapping —
`drop_duplicates(subset=['mmsi', 'spill_id'])` at line 209,
`groupby('spill_id')` at line 233 and the `candidates_df['detection_date']`
column access at line 238 all name columns that do not exist. -/
theorem C5_empty_candidates_keyerror :
    find_candidates (some [spillA]) (some [fixOutside]) 24 =
        CandFrame.emptySchemaless ∧
      ship_incident_counts_frame (find_candidates (some [spillA]) (some [fixOutside]) 24) =
        Except.error "KeyError: mmsi, spill_id" ∧
      ship_area_sum_frame (find_candidates (some [spillA]) (some [fixOutside]) 24) =
        Except.error "KeyError: mmsi, spill_id" ∧
      spill_candidate_counts_frame (find_candidates (some [spillA]) (some [fixOutside]) 24) =
        Except.error "KeyError: spill_id" ∧
      prime_suspects_frame (find_candidates (some [spillA]) (some [fixOutside]) 24) =
        Except.error "KeyError: detection_date" ∧
      vessel_type_analysis_frame (find_candidates (some [spillA]) (some [fixOutside]) 24) =
        Except.error "KeyError: mmsi, spill_id" :=
  ⟨rfl, rfl, rfl, rfl, rfl, rfl⟩

/-! ### Mutation of the candidate frame (C6) -/

/-- C6 is false as stated: running the prime-suspect block does not leave the
candidate set it received unchanged — line 238 assigns the
`time_to_detection` column on the shared frame in place. -/
theorem C6_counterexample :
    (prime_suspects_block [⟨fixInside, spillA, none⟩]).2 ≠
      [⟨fixInside, spillA, none⟩] := by decide

/-- C6 (amended): the aggregations other than the prime-suspect block are pure
functions of the candidate set; the prime-suspect block does mutate the shared
candidate frame, but only by filling the `time_to_detection` column with
`detection_date - timestamp` — the vessel and spill fields of every row (and
hence the candidate pairs themselves) are preserved. -/
theorem C6_mutation_only_ttd (cands : List Cand) :
    ((prime_suspects_block cands).2).map (fun c => (c.fix, c.spill)) =
      cands.map (fun c => (c.fix, c.spill)) ∧
    ∀ c ∈ (prime_suspects_block cands).2, c.ttd = some c.ttdVal := by
  constructor
  · show (set_time_to_detection cands).map _ = _
    simp [set_time_to_detection, List.map_map]
  · intro c hc
    exact (@mem_set_ttd_fields cands _ hc).1

/-- Witness for C6 (amended) at a concrete input: the single row keeps its
fix and spill and gains `time_to_detection = 10`. -/
theorem C6_mutation_only_ttd_witness :
    (⟨fixInside, spillA, some 10⟩ : Cand) ∈
        (prime_suspects_block [⟨fixInside, spillA, none⟩]).2 ∧
      (⟨fixInside, spillA, some 10⟩ : Cand).ttd =
        some (⟨fixInside, spillA, some 10⟩ : Cand).ttdVal :=
  ⟨by decide,
    (C6_mutation_only_ttd [⟨fixInside, spillA, none⟩]).2 _ (by decide)⟩

/-! ### Loader partial-data handling (C7) -/

/-- A spill row whose timestamp failed to parse. -/
def rawSpillBad : RawSpill := ⟨"unparseable-id", 7, sq2, none⟩

/-- A spill row whose timestamp parsed. -/
def rawSpillGood : RawSpill := ⟨"2024-01-10_12:00:00", 5, sq2, some 100⟩

/-- An AIS row whose timestamp failed to parse. -/
def rawAisBad : RawAis := ⟨555, some 0, some 0, none, none, none⟩

/-- An AIS row with timestamp and coordinates present. -/
def rawAisGood : RawAis := ⟨222, some 1, some 1, some 90, some "Beta", none⟩

/-- C7 is false as stated, on two points: when every row has an unparseable
timestamp, the spills loader turns the partial-data error into a fatal
failure (it returns `None`, the same outcome as a load error); and the AIS
loader drops its offending rows without surfacing any dropped-row count. -/
theorem C7_counterexample :
    (load_spills_data [rawSpillBad]).1 = none ∧
      (load_ais_data [rawAisBad, rawAisGood]).1 =
        some [⟨222, ⟨1, 1⟩, 90, some "Beta", none⟩] ∧
      (load_ais_data [rawAisBad, rawAisGood]).2 = none := by decide

/-- C7 (amended): both loaders recover from partial-data errors by dropping
exactly the offending rows.  The spills loader surfaces the dropped-row count
(when it is nonzero) via its warning, but returns a fatal failure exactly
when no row survives the drop; the AIS loader never fails on partial data and
surfaces no dropped-row count at all. -/
theorem C7_loaders_partial_data (gdf : List RawSpill) (df : List RawAis) :
    ((load_spills_data gdf).2 =
      if gdf.countP (fun r => r.detection_date.isNone) = 0 then none
      else some (gdf.countP (fun r => r.detection_date.isNone))) ∧
    ((load_spills_data gdf).1 = none ↔ ∀ r ∈ gdf, parseSpillRow r = none) ∧
    (∀ l, (load_spills_data gdf).1 = some l →
      ∀ s, s ∈ l ↔ ∃ r ∈ gdf, parseSpillRow r = some s) ∧
    (load_ais_data df).2 = none ∧
    (load_ais_data df).1 ≠ none ∧
    (∀ lf, (load_ais_data df).1 = some lf →
      ∀ fx, fx ∈ lf ↔ ∃ r ∈ df, parseAisRow r = some fx) := by
  refine ⟨?_, ?_, ?_, rfl, ?_, ?_⟩
  · simp only [load_spills_data]
    by_cases h : (gdf.filterMap parseSpillRow).isEmpty
    · rw [if_pos h]
    · rw [if_neg h]
  · simp only [load_spills_data]
    by_cases h : (gdf.filterMap parseSpillRow).isEmpty
    · rw [if_pos h]
      simp only [List.isEmpty_iff, List.filterMap_eq_nil_iff] at h
      simpa using h
    · rw [if_neg h]
      simp only [List.isEmpty_iff, List.filterMap_eq_nil_iff] at h
      simpa using h
  · intro l hl s
    simp only [load_spills_data] at hl
    by_cases h : (gdf.filterMap parseSpillRow).isEmpty
    · rw [if_pos h] at hl
      exact absurd hl (by simp)
    · rw [if_neg h] at hl
      have hkeep : gdf.filterMap parseSpillRow = l := by simpa using hl
      rw [← hkeep, List.mem_filterMap]
  · simp [load_ais_data]
  · intro lf hlf fx
    have hkeep : df.filterMap parseAisRow = lf := by simpa [load_ais_data] using hlf
    rw [← hkeep, List.mem_filterMap]

/-- Witness for C7 (amended) at concrete inputs: one bad and one good spill
row give a surfaced count of 1 and a non-fatal result; the AIS loader
surfaces no count. -/
theorem C7_loaders_partial_data_witness :
    (load_spills_data [rawSpillBad, rawSpillGood]).2 =
        (if ([rawSpillBad, rawSpillGood].countP (fun r => r.detection_date.isNone)) = 0
          then none else some ([rawSpillBad, rawSpillGood].countP
            (fun r => r.detection_date.isNone))) ∧
      ((load_spills_data [rawSpillBad, rawSpillGood]).1 = none ↔
        ∀ r ∈ [rawSpillBad, rawSpillGood], parseSpillRow r = none) ∧
      (load_ais_data [rawAisBad, rawAisGood]).2 = none :=
  ⟨(C7_loaders_partial_data [rawSpillBad, rawSpillGood] [rawAisBad, rawAisGood]).1,
    (C7_loaders_partial_data [rawSpillBad, rawSpillGood] [rawAisBad, rawAisGood]).2.1,
    (C7_loaders_partial_data [rawSpillBad, rawSpillGood] [rawAisBad, rawAisGood]).2.2.2.1⟩

/-! ### Left-merge lemmas (C9, C10) -/

lemma pd_merge_left_cons {α : Type} (p : ℤ × α) (t : List (ℤ × α))
    (right : List (ℤ × Option String)) :
    pd_merge_left (p :: t) right =
      (if (right.filter (fun q => q.1 == p.1)).isEmpty
        then [(p.1, p.2, (none : Option String))]
        else (right.filter (fun q => q.1 == p.1)).map (fun q => (p.1, p.2, q.2))) ++
      pd_merge_left t right := by
  rfl

lemma pd_merge_left_keeps_row {α : Type} (left : List (ℤ × α))
    (right : List (ℤ × Option String)) (p : ℤ × α) (hp : p ∈ left) :
    ∃ nm, (p.1, p.2, nm) ∈ pd_merge_left left right := by
  cases hm : right.filter (fun q => q.1 == p.1) with
  | nil =>
    refine ⟨none, List.mem_flatMap.mpr ⟨p, hp, ?_⟩⟩
    simp [hm]
  | cons q t =>
    refine ⟨q.2, List.mem_flatMap.mpr ⟨p, hp, ?_⟩⟩
    simp only [hm, List.isEmpty_cons, if_false]
    exact List.mem_map.mpr ⟨q, List.mem_cons_self _ _, rfl⟩

lemma pd_merge_left_no_match {α : Type} (left : List (ℤ × α))
    (right : List (ℤ × Option String)) (p : ℤ × α) (hp : p ∈ left)
    (hm : right.filter (fun q => q.1 == p.1) = []) :
    (p.1, p.2, (none : Option String)) ∈ pd_merge_left left right := by
  refine List.mem_flatMap.mpr ⟨p, hp, ?_⟩
  simp [hm]

/-- C9: the left-join of vessel display names onto the ranking tables keyed
by mmsi never drops a row — every mmsi present in the incident-count table or
the area-sum table is still present after the join; and a row whose mmsi has
no entry at all in the name table is kept with a missing name. -/
theorem C9_name_join_keeps_rows (uniq : List Cand)
    (names : List (ℤ × Option String)) :
    (∀ m, m ∈ (ship_incident_counts uniq).map Prod.fst →
      m ∈ (pd_merge_left (ship_incident_counts uniq) names).map Prod.fst) ∧
    (∀ m, m ∈ (ship_area_sum uniq).map Prod.fst →
      m ∈ (pd_merge_left (ship_area_sum uniq) names).map Prod.fst) ∧
    (∀ p ∈ ship_incident_counts uniq, names.filter (fun q => q.1 == p.1) = [] →
      (p.1, p.2, (none : Option String)) ∈
        pd_merge_left (ship_incident_counts uniq) names) := by
  refine ⟨fun m hm => ?_, fun m hm => ?_, fun p hp hnm => ?_⟩
  · obtain ⟨p, hp, he⟩ := List.mem_map.mp hm
    obtain ⟨nm, hmem⟩ := pd_merge_left_keeps_row _ names p hp
    exact List.mem_map.mpr ⟨(p.1, p.2, nm), hmem, he⟩
  · obtain ⟨p, hp, he⟩ := List.mem_map.mp hm
    obtain ⟨nm, hmem⟩ := pd_merge_left_keeps_row _ names p hp
    exact List.mem_map.mpr ⟨(p.1, p.2, nm), hmem, he⟩
  · exact pd_merge_left_no_match _ names p hp hnm

/-- Witness for C9 at a concrete input: the table has rows for mmsi 222 and
333; the name list only knows 222, and the 333 row survives the join with a
missing name. -/
theorem C9_name_join_keeps_rows_witness :
    ((222 : ℤ) ∈ (ship_incident_counts
        [⟨fixInside, spillA, none⟩, ⟨fixOutside, spillA, none⟩]).map Prod.fst) ∧
    ((222 : ℤ) ∈ (pd_merge_left
        (ship_incident_counts [⟨fixInside, spillA, none⟩, ⟨fixOutside, spillA, none⟩])
        [(222, some "Beta")]).map Prod.fst) ∧
    (((333 : ℤ), (1 : ℕ)) ∈ ship_incident_counts
        [⟨fixInside, spillA, none⟩, ⟨fixOutside, spillA, none⟩]) ∧
    (((333 : ℤ), (1 : ℕ), (none : Option String)) ∈
      pd_merge_left
        (ship_incident_counts [⟨fixInside, spillA, none⟩, ⟨fixOutside, spillA, none⟩])
        [(222, some "Beta")]) :=
  ⟨by decide,
    (C9_name_join_keeps_rows
      [⟨fixInside, spillA, none⟩, ⟨fixOutside, spillA, none⟩] [(222, some "Beta")]).1 222
      (by decide),
    by decide,
    (C9_name_join_keeps_rows
      [⟨fixInside, spillA, none⟩, ⟨fixOutside, spillA, none⟩] [(222, some "Beta")]).2.2
      (333, 1) (by decide) (by decide)⟩

lemma merge_block_countP_ne {α : Type} (p : ℤ × α) (right : List (ℤ × Option String))
    (m : ℤ) (hne : p.1 ≠ m) :
    (if (right.filter (fun q => q.1 == p.1)).isEmpty
      then [(p.1, p.2, (none : Option String))]
      else (right.filter (fun q => q.1 == p.1)).map (fun q => (p.1, p.2, q.2))).countP
        (fun r => r.1 == m) = 0 := by
  rw [List.countP_eq_zero]
  intro r hr
  split at hr
  · rw [List.mem_singleton] at hr
    subst hr
    simp [hne]
  · obtain ⟨q, hq, he⟩ := List.mem_map.mp hr
    subst he
    simp [hne]

lemma merge_block_countP_eq {α : Type} (p : ℤ × α) (right : List (ℤ × Option String))
    (hne : right.filter (fun q => q.1 == p.1) ≠ []) :
    (if (right.filter (fun q => q.1 == p.1)).isEmpty
      then [(p.1, p.2, (none : Option String))]
      else (right.filter (fun q => q.1 == p.1)).map (fun q => (p.1, p.2, q.2))).countP
        (fun r => r.1 == p.1) = (right.filter (fun q => q.1 == p.1)).length := by
  rw [if_neg (by simpa [List.isEmpty_iff] using hne), List.countP_map]
  simp

lemma pd_merge_left_countP_zero {α : Type} (right : List (ℤ × Option String)) (m : ℤ) :
    ∀ left : List (ℤ × α), m ∉ left.map Prod.fst →
      (pd_merge_left left right).countP (fun r => r.1 == m) = 0 := by
  intro left
  induction left with
  | nil => intro _; rfl
  | cons p t ih =>
    intro hm
    simp only [List.map_cons, List.mem_cons] at hm
    push_neg at hm
    rw [pd_merge_left_cons, List.countP_append,
      merge_block_countP_ne p right m (fun h => hm.1 h.symm), ih hm.2]

lemma pd_merge_left_countP {α : Type} (right : List (ℤ × Option String)) (m : ℤ) :
    ∀ left : List (ℤ × α), (left.map Prod.fst).Nodup → m ∈ left.map Prod.fst →
      right.filter (fun q => q.1 == m) ≠ [] →
      (pd_merge_left left right).countP (fun r => r.1 == m) =
        (right.filter (fun q => q.1 == m)).length := by
  intro left
  induction left with
  | nil => intro _ hm; simp at hm
  | cons p t ih =>
    intro hnd hm hmatch
    simp only [List.map_cons, List.nodup_cons] at hnd
    obtain ⟨hpn, hnd'⟩ := hnd
    rw [pd_merge_left_cons, List.countP_append]
    by_cases hpm : p.1 = m
    · subst hpm
      rw [merge_block_countP_eq p right hmatch,
        pd_merge_left_countP_zero right p.1 t hpn]
      omega
    · simp only [List.map_cons, List.mem_cons] at hm
      rcases hm with hm | hm
      · exact absurd hm.symm hpm
      · rw [merge_block_countP_ne p right m hpm, ih hnd' hm hmatch]
        simp

lemma mem_ship_names {uniq : List Cand} {q : ℤ × Option String} :
    q ∈ ship_names uniq ↔
      q ∈ uniq.map (fun c => (c.fix.mmsi, c.fix.vessel_name)) := by
  constructor
  · exact fun h => dedupByKey_subset _ _ _ q h
  · intro hq
    have hiff := dedupByKey_mem_keys (fun p : ℤ × Option String => p)
      (uniq.map (fun c => (c.fix.mmsi, c.fix.vessel_name))) [] q
    rw [List.map_id', List.map_id'] at hiff
    exact hiff.mpr ⟨hq, by simp⟩

lemma ship_names_nodup (uniq : List Cand) : (ship_names uniq).Nodup := by
  have h := dedupByKey_nodup_keys (fun p : ℤ × Option String => p)
    (uniq.map (fun c => (c.fix.mmsi, c.fix.vessel_name))) []
  rwa [List.map_id'] at h

lemma table_keys_perm {γ : Type} [LinearOrder γ] (keys : List ℤ) (g : ℤ → γ) :
    List.Perm
      ((sort_values_desc (fun p : ℤ × γ => p.2) (keys.map (fun m => (m, g m)))).map
        Prod.fst)
      keys := by
  have h1 : List.Perm
      (sort_values_desc (fun p : ℤ × γ => p.2) (keys.map (fun m => (m, g m))))
      (keys.map (fun m => (m, g m))) := List.perm_insertionSort _ _
  have h2 := h1.map Prod.fst
  have h3 : ∀ ks : List ℤ, (ks.map (fun m => (m, g m))).map Prod.fst = ks := by
    intro ks
    induction ks with
    | nil => rfl
    | cons a t ih => simp only [List.map_cons, ih]
  rw [h3 keys] at h2
  exact h2

lemma ship_incident_counts_keys_perm (uniq : List Cand) :
    List.Perm ((ship_incident_counts uniq).map Prod.fst) (mmsiCol uniq).dedup :=
  (table_keys_perm _ _).trans (List.perm_insertionSort _ _)

lemma ship_area_sum_keys_perm (uniq : List Cand) :
    List.Perm ((ship_area_sum uniq).map Prod.fst) (mmsiCol uniq).dedup :=
  (table_keys_perm _ _).trans (List.perm_insertionSort _ _)

lemma countP_eq_one_of_nodup_mem {l : List ℤ} {m : ℤ} (hnd : l.Nodup) (hm : m ∈ l) :
    l.countP (fun k => k == m) = 1 := by
  induction l with
  | nil => simp at hm
  | cons a t ih =>
    rw [List.nodup_cons] at hnd
    rw [List.countP_cons]
    rcases List.mem_cons.mp hm with rfl | hm'
    · have hzero : t.countP (fun k => k == m) = 0 := by
        rw [List.countP_eq_zero]
        intro x hx
        simp only [beq_iff_eq]
        intro he; exact hnd.1 (he ▸ hx)
      simp [hzero]
    · rw [ih hnd.2 hm']
      have hne : (a == m) = false := by
        simp only [beq_eq_false_iff_ne, ne_eq]
        intro he; exact hnd.1 (he ▸ hm')
      simp [hne]

/-- C10 (implicit): the name left-join merges against the distinct
(mmsi, vessel_name) pairs of the deduplicated candidate set.  Before the
join, the count and area ranking tables have exactly one row per mmsi; after
the join, the number of rows carrying an mmsi equals the number of distinct
(mmsi, vessel_name) pairs of that mmsi — so an mmsi carrying k > 1 distinct
vessel names yields k rows, and exactly one row remains only when the name
is unique. -/
theorem C10_name_join_multiplicity (uniq : List Cand) (m : ℤ) (hm : m ∈ mmsiCol uniq) :
    (pd_merge_left (ship_incident_counts uniq) (ship_names uniq)).countP
        (fun r => r.1 == m) = (ship_names uniq).countP (fun q => q.1 == m) ∧
    (pd_merge_left (ship_area_sum uniq) (ship_names uniq)).countP
        (fun r => r.1 == m) = (ship_names uniq).countP (fun q => q.1 == m) ∧
    (ship_names uniq).countP (fun q => q.1 == m) =
      ((uniq.filter (fun c => c.fix.mmsi == m)).map
        (fun c => c.fix.vessel_name)).dedup.length ∧
    1 ≤ (ship_names uniq).countP (fun q => q.1 == m) ∧
    (ship_incident_counts uniq).countP (fun r => r.1 == m) = 1 ∧
    (ship_area_sum uniq).countP (fun r => r.1 == m) = 1 := by
  obtain ⟨c0, hc0, hcm0⟩ := List.mem_map.mp hm
  have hpair : ((m, c0.fix.vessel_name) : ℤ × Option String) ∈ ship_names uniq := by
    rw [mem_ship_names]
    exact List.mem_map.mpr ⟨c0, hc0, by rw [hcm0]⟩
  have hmatch : (ship_names uniq).filter (fun q => q.1 == m) ≠ [] := by
    intro hnil
    have hmem : ((m, c0.fix.vessel_name) : ℤ × Option String) ∈
        (ship_names uniq).filter (fun q => q.1 == m) :=
      List.mem_filter.mpr ⟨hpair, by simp⟩
    rw [hnil] at hmem
    simp at hmem
  have hnames_len : (ship_names uniq).countP (fun q => q.1 == m) =
      ((ship_names uniq).filter (fun q => q.1 == m)).length :=
    List.countP_eq_length_filter _ _
  have hcntkeys := ship_incident_counts_keys_perm uniq
  have hnd1 : ((ship_incident_counts uniq).map Prod.fst).Nodup :=
    hcntkeys.nodup_iff.mpr (List.nodup_dedup _)
  have hmem1 : m ∈ (ship_incident_counts uniq).map Prod.fst :=
    hcntkeys.mem_iff.mpr (List.mem_dedup.mpr hm)
  have hareakeys := ship_area_sum_keys_perm uniq
  have hnd2 : ((ship_area_sum uniq).map Prod.fst).Nodup :=
    hareakeys.nodup_iff.mpr (List.nodup_dedup _)
  have hmem2 : m ∈ (ship_area_sum uniq).map Prod.fst :=
    hareakeys.mem_iff.mpr (List.mem_dedup.mpr hm)
  have hconj3 : (ship_names uniq).countP (fun q => q.1 == m) =
      ((uniq.filter (fun c => c.fix.mmsi == m)).map
        (fun c => c.fix.vessel_name)).dedup.length := by
    have hFnd : ((ship_names uniq).filter (fun q => q.1 == m)).Nodup :=
      (ship_names_nodup uniq).filter _
    have hfst : ∀ q ∈ (ship_names uniq).filter (fun q => q.1 == m), q.1 = m := by
      intro q hq
      have hq2 := (List.mem_filter.mp hq).2
      simpa using hq2
    have hAnd : (((ship_names uniq).filter (fun q => q.1 == m)).map Prod.snd).Nodup := by
      refine List.Nodup.map_on ?_ hFnd
      intro x hx y hy hxy
      exact Prod.ext ((hfst x hx).trans (hfst y hy).symm) hxy
    have hDnd : (((uniq.filter (fun c => c.fix.mmsi == m)).map
        (fun c => c.fix.vessel_name)).dedup).Nodup := List.nodup_dedup _
    have hmemiff : ∀ n, n ∈ ((ship_names uniq).filter (fun q => q.1 == m)).map Prod.snd ↔
        n ∈ ((uniq.filter (fun c => c.fix.mmsi == m)).map
          (fun c => c.fix.vessel_name)).dedup := by
      intro n
      constructor
      · intro hn
        obtain ⟨q, hq, he⟩ := List.mem_map.mp hn
        obtain ⟨hqS, hqm⟩ := List.mem_filter.mp hq
        have hqm' : q.1 = m := by simpa using hqm
        rw [mem_ship_names] at hqS
        obtain ⟨c, hc, he2⟩ := List.mem_map.mp hqS
        rw [List.mem_dedup]
        refine List.mem_map.mpr ⟨c, List.mem_filter.mpr ⟨hc, ?_⟩, ?_⟩
        · have hc1 : c.fix.mmsi = q.1 := by rw [← he2]
          simp [hc1, hqm']
        · have hc2 : c.fix.vessel_name = q.2 := by rw [← he2]
          rw [hc2, he]
      · intro hn
        rw [List.mem_dedup] at hn
        obtain ⟨c, hc, he⟩ := List.mem_map.mp hn
        obtain ⟨hcu, hcm⟩ := List.mem_filter.mp hc
        have hcm' : c.fix.mmsi = m := by simpa using hcm
        refine List.mem_map.mpr ⟨(m, n), ?_, rfl⟩
        refine List.mem_filter.mpr ⟨?_, by simp⟩
        rw [mem_ship_names]
        exact List.mem_map.mpr ⟨c, hcu, by rw [hcm', he]⟩
    have hfinset : (((ship_names uniq).filter (fun q => q.1 == m)).map Prod.snd).toFinset =
        (((uniq.filter (fun c => c.fix.mmsi == m)).map
          (fun c => c.fix.vessel_name)).dedup).toFinset := by
      ext n
      simp only [List.mem_toFinset]
      exact hmemiff n
    have hlen : (((ship_names uniq).filter (fun q => q.1 == m)).map Prod.snd).length =
        (((uniq.filter (fun c => c.fix.mmsi == m)).map
          (fun c => c.fix.vessel_name)).dedup).length := by
      rw [← List.toFinset_card_of_nodup hAnd, ← List.toFinset_card_of_nodup hDnd,
        hfinset]
    rw [hnames_len, ← hlen, List.length_map]
  refine ⟨?_, ?_, hconj3, ?_, ?_, ?_⟩
  · rw [pd_merge_left_countP (ship_names uniq) m _ hnd1 hmem1 hmatch, hnames_len]
  · rw [pd_merge_left_countP (ship_names uniq) m _ hnd2 hmem2 hmatch, hnames_len]
  · rw [hnames_len]
    exact Nat.succ_le_of_lt (List.length_pos.mpr hmatch)
  · have h1 := countP_eq_one_of_nodup_mem hnd1 hmem1
    rw [List.countP_map] at h1
    exact h1
  · have h1 := countP_eq_one_of_nodup_mem hnd2 hmem2
    rw [List.countP_map] at h1
    exact h1

/-- A second spill over the same square, detected at time 200. -/
def spillB : Spill := ⟨"2024-02-02_08:00:00", sq2, 200, 3⟩

/-- A fix with the same mmsi as `fixInside` but a different display name. -/
def fixRenamed : VesselFix := ⟨222, ⟨1, 1⟩, 190, some "Beta II", some "Tanker"⟩

/-- Witness for C10 at a concrete input: mmsi 222 appears under two distinct
names ("Beta" and "Beta II"), so the name table has two entries for it and
the joined count table carries two rows for mmsi 222. -/
theorem C10_name_join_multiplicity_witness :
    ((222 : ℤ) ∈ mmsiCol [⟨fixInside, spillA, none⟩, ⟨fixRenamed, spillB, none⟩]) ∧
    ((pd_merge_left
        (ship_incident_counts [⟨fixInside, spillA, none⟩, ⟨fixRenamed, spillB, none⟩])
        (ship_names [⟨fixInside, spillA, none⟩, ⟨fixRenamed, spillB, none⟩])).countP
        (fun r => r.1 == (222 : ℤ)) =
      (ship_names [⟨fixInside, spillA, none⟩, ⟨fixRenamed, spillB, none⟩]).countP
        (fun q => q.1 == (222 : ℤ))) ∧
    ((ship_names [⟨fixInside, spillA, none⟩, ⟨fixRenamed, spillB, none⟩]).countP
        (fun q => q.1 == (222 : ℤ)) = 2) :=
  ⟨by decide,
    (C10_name_join_multiplicity
      [⟨fixInside, spillA, none⟩, ⟨fixRenamed, spillB, none⟩] 222 (by decide)).1,
    by decide⟩
